import Mathlib

/-!
Verification of the n3n edge-runtime core against its specification.

The definitions below are a shallow embedding of the C sources
`src/n2n.c` and `libs/connslot/connslot.c`:

* machine integers become `Nat` with explicit `% 2 ^ w` where overflow can
  occur; signed comparisons go through an explicit two's-complement view;
* byte buffers become `List Nat`;
* calls into the OS (`read`, `write`, `accept`, `getaddrinfo`,
  `gettimeofday`, `inet_ntop`) become explicit parameters of the embedded
  functions, so that every function is a pure, executable Lean definition.

Definitions keep the names of the C functions they embed.  The file is laid
out as: all definitions, then all theorems.
-/

/-! # Definitions -/

/-! ## Small integer helpers -/

/-- Truncating C cast of a 64-bit pattern to a signed `int64_t` value. -/
def toInt64 (x : Nat) : Int :=
  if x < 2 ^ 63 then (x : Int) else (x : Int) - 2 ^ 64

/-- Bitwise complement on a 64-bit unsigned value (C `~x` on `uint64_t`). -/
def not64 (x : Nat) : Nat := 2 ^ 64 - 1 - x

/-! ## `bitlen2mask` and `mask2bitlen` (src/n2n.c lines 131-158)

`bitlen2mask` mirrors the C loop `for(i = 1; i <= bitlen; ++i) mask |= 1 << (32 - i)`;
`mask2bitlen` mirrors the C loop over `i = 0..31` that counts leading one bits
of `mask << i` and stops at the first zero bit. -/

/-- Convert subnet prefix bit length to host order subnet mask (`uint32_t`). -/
def bitlen2mask (bitlen : Nat) : Nat :=
  (List.range bitlen).foldl (fun mask j => mask ||| ((1 <<< (32 - (j + 1))) % 2 ^ 32)) 0

/-- Convert host order subnet mask to subnet prefix bit length.
The fold state is `(still counting, bitlen so far)`, mirroring the C `break`. -/
def mask2bitlen (mask : Nat) : Nat :=
  ((List.range 32).foldl
    (fun s i =>
      match s with
      | (false, b) => (false, b)
      | (true, b) =>
        if ((mask <<< i) % 2 ^ 32) &&& 0x80000000 ≠ 0 then (true, b + 1) else (false, b))
    (true, 0)).2

/-! ## Socket model (`n2n_sock_t`) and `sock_to_cstr` (src/n2n.c lines 570-597)

The numeric values of the address families are platform constants from
headers outside the sample; only their distinctness is used. -/

def AF_INET : Nat := 2
def AF_INET6 : Nat := 10
/-- Family tag of an uninitialized or failed-resolution socket. -/
def AF_INVALID : Nat := 255

structure N2nSock where
  family : Nat
  port : Nat
  v4 : List Nat
  v6 : List Nat
deriving DecidableEq, Repr

/-- `sock_to_cstr`.  The output buffer pointer becomes the flag `out_null`;
the external `inet_ntop(AF_INET6, ...)` call becomes the oracle `ntop6`.
Returns `none` exactly when the C function returns `NULL`. -/
def sock_to_cstr (ntop6 : List Nat → String) (out_null : Bool) (sock : N2nSock) :
    Option String :=
  if out_null then
    none
  else if sock.family = AF_INET6 then
    some ("[" ++ ntop6 sock.v6 ++ "]:" ++ toString (sock.port % 2 ^ 16))
  else
    some (toString ((sock.v4.getD 0 0) % 256) ++ "." ++
          toString ((sock.v4.getD 1 0) % 256) ++ "." ++
          toString ((sock.v4.getD 2 0) % 256) ++ "." ++
          toString ((sock.v4.getD 3 0) % 256) ++ ":" ++
          toString (sock.port % 2 ^ 16))

/-! ## `sock_equal` (src/n2n.c lines 613-640) -/

/-- `sock_equal`: compares port, family, then the 4 (IPv4) or 16 (other
families) address bytes, mirroring the C `switch`. -/
def sock_equal (a b : N2nSock) : Bool :=
  if a.port ≠ b.port then false
  else if a.family ≠ b.family then false
  else if a.family = AF_INET then decide (a.v4.take 4 = b.v4.take 4)
  else decide (a.v6.take 16 = b.v6.take 16)

/-! ## `supernode2sock` and the resolver worker step (src/n2n.c lines 178-304)

Hostnames are byte lists (C `char` arrays).  The external `getaddrinfo`
call (hinted to IPv4) becomes the oracle
`getaddrinfo4 : List Nat → Option (List Nat)`; `none` covers both a
resolver error (C return `-2`) and the defensive `-1` paths.
C `strtok(addr, ":")` returns the successive nonempty runs between
colons (byte 58). -/

/-- Decimal digit parse used to model `atoi`/`strtoul` digit accumulation. -/
def parse_digits (l : List Nat) : Nat :=
  (l.takeWhile (fun b => decide (48 ≤ b ∧ b ≤ 57))).foldl (fun a b => a * 10 + (b - 48)) 0

/-- `atoi` applied to the port token, truncated by the `uint16_t` `port`
field assignment. -/
def atoi_port (s : List Nat) : Nat :=
  parse_digits s % 2 ^ 16

/-- `supernode2sock`: parses `host:port`, sets `sn->family = AF_INVALID`
first (as the C code does), then fills port and, on successful resolution,
the IPv4 address bytes and `AF_INET`.  Returns `(error code, new sock)`. -/
def supernode2sock (getaddrinfo4 : List Nat → Option (List Nat)) (sn : N2nSock)
    (addrIn : List Nat) : Int × N2nSock :=
  let sn := { sn with family := AF_INVALID }
  match (addrIn.splitOn 58).filter (fun t => t ≠ []) with
  | [] => (-4, sn)
  | [_] => (-3, sn)
  | host :: port :: _ =>
    let sn := { sn with port := atoi_port port }
    match getaddrinfo4 host with
    | none => (-2, sn)
    | some ip4 => (0, { sn with v4 := ip4, family := AF_INET })

/-- One resolver entry: hostname bytes, shadow socket buffer, error code
(`n2n_resolve_ip_sock_t`; the weak pointer to the live socket is kept by
the caller). -/
structure ResolveEntry where
  org_ip : List Nat
  sock : N2nSock
  error_code : Int
deriving DecidableEq, Repr

/-- The per-entry body of the `resolve_thread` re-resolution loop:
`entry->error_code = supernode2sock(&entry->sock, entry->org_ip)`. -/
def resolve_thread_entry (getaddrinfo4 : List Nat → Option (List Nat))
    (e : ResolveEntry) : ResolveEntry :=
  let r := supernode2sock getaddrinfo4 e.sock e.org_ip
  { e with error_code := r.1, sock := r.2 }

/-! ## Peer list: `add_sn_to_list_by_mac_or_sock` (src/n2n.c lines 420-454) -/

def null_mac : List Nat := [0, 0, 0, 0, 0, 0]

/-- `is_null_mac` (MAC addresses are modelled as their 6-byte lists). -/
def is_null_mac (mac : List Nat) : Bool := decide (mac = null_mac)

/-- Peer record; only the fields used by the embedded operations appear. -/
structure PeerInfo where
  mac_addr : List Nat
  sock : N2nSock
  selection_criterion : Nat
deriving DecidableEq, Repr

/-- Modelled from the spec: the default selection score given to a newly
created peer ("creates a new peer with default selection score");
`sn_selection_criterion_default` lives in `sn_selection.c`, outside the
sample.  Only its value's identity matters. -/
def sn_selection_criterion_default : Nat := 0

/-- Modelled from the spec: mode constants for `add_or_update`
(`mode ∈ {add, no-add}` plus the "added" out-value); their numeric values
come from headers outside the sample and only equality is used. -/
def SN_ADD : Int := 1
def SN_ADD_ADDED : Int := 2

/-- `add_sn_to_list_by_mac_or_sock`.  The uthash table becomes a list in
insertion order: `HASH_FIND_PEER` is `find?` by MAC, the `HASH_ITER` scan
is `find?` by whole-struct socket comparison, and `HASH_DEL`/`HASH_ADD`
re-keying removes the record and appends the re-keyed record at the tail.
Returns `(new list, returned peer, new *skip_add)`. -/
def add_sn_to_list_by_mac_or_sock (sn_list : List PeerInfo) (sock : N2nSock)
    (mac : List Nat) (skip_add : Int) : List PeerInfo × Option PeerInfo × Int :=
  let byMac := if is_null_mac mac then none
               else sn_list.find? (fun p => decide (p.mac_addr = mac))
  match byMac with
  | some peer => (sn_list, some peer, skip_add)
  | none =>
    match sn_list.find? (fun p => decide (p.sock = sock)) with
    | some scan =>
      if is_null_mac mac then (sn_list, some scan, skip_add)
      else
        let scan2 := { scan with mac_addr := mac }
        (sn_list.eraseP (fun p => decide (p.sock = sock)) ++ [scan2], some scan2, skip_add)
    | none =>
      if skip_add = SN_ADD then
        let peer := PeerInfo.mk mac sock sn_selection_criterion_default
        (sn_list ++ [peer], some peer, SN_ADD_ADDED)
      else (sn_list, none, skip_add)

/-! ## Connection slots (libs/connslot/connslot.c)

The strbuf library itself is outside the sample; `Strbuf` is modelled from
the spec (§4.1): a growable byte buffer with a read position and contents
(the write position is the length of `str`).  Capacity management
(`sb_avail`/`sb_realloc`) always succeeds in the model.  Results of the
non-blocking `read(2)` call inside `sb_read` become the `ReadResult`
parameter; the number of bytes moved by `writev(2)` becomes the `sent`
parameter of `conn_write`. -/

inductive ConnState where
  | CONN_EMPTY
  | CONN_READING
  | CONN_READY
  | CONN_SENDING
  | CONN_CLOSED
  | CONN_ERROR
deriving DecidableEq, Repr

/-- Modelled from the spec: the `strbuf_t` byte buffer (its C source is
outside the sample).  `rd_pos` doubles as the cached expected request
length, exactly as `conn_read` uses it. -/
structure Strbuf where
  rd_pos : Nat
  str : List Nat
deriving DecidableEq, Repr

def sb_len (sb : Strbuf) : Nat := sb.str.length

/-- `sb_zero`: reset positions and contents, do not free. -/
def sb_zero (sb : Strbuf) : Strbuf := { sb with rd_pos := 0, str := [] }

structure Conn where
  fd : Int
  state : ConnState
  request : Strbuf
  reply : Option Strbuf
  reply_header : Strbuf
  reply_sendpos : Nat
  activity : Int
deriving DecidableEq, Repr

/-- `conn_zero` (connslot.c lines 63-76). -/
def conn_zero (c : Conn) : Conn :=
  { c with fd := -1, state := ConnState.CONN_EMPTY, reply := none,
           reply_sendpos := 0, activity := 0,
           request := sb_zero c.request, reply_header := sb_zero c.reply_header }

/-- Outcome of the non-blocking `read` performed by `sb_read`. -/
inductive ReadResult where
  | closed
  | wouldblock
  | ioerror
  | data (bs : List Nat)
deriving DecidableEq, Repr

/-- The byte sequence CR LF CR LF. -/
def crlfcrlf : List Nat := [13, 10, 13, 10]

/-- The 15 bytes of the case-sensitive string `Content-Length:`. -/
def contentLengthHeader : List Nat :=
  [67, 111, 110, 116, 101, 110, 116, 45, 76, 101, 110, 103, 116, 104, 58]

/-- `memmem(hay, hay_len, needle, needle_len)`: index of the first
occurrence of `needle` within the first `hay_len` bytes of `hay`. -/
def memmem (hay : List Nat) (hay_len : Nat) (needle : List Nat) : Option Nat :=
  (List.range (hay_len + 1)).find?
    (fun i => decide (i + needle.length ≤ hay_len) && needle.isPrefixOf ((hay.take hay_len).drop i))

/-- C `isspace` on a byte. -/
def isspace_c (b : Nat) : Bool :=
  b = 32 || b = 9 || b = 10 || b = 11 || b = 12 || b = 13

/-- `strtoul(s, NULL, 10)` over the remaining received bytes: skip
whitespace, optional sign (`-` negates modulo 2^64), decimal digits,
clamping at `ULONG_MAX`. -/
def strtoul10 (s : List Nat) : Nat :=
  let s1 := s.dropWhile isspace_c
  match s1 with
  | 43 :: rest => min (parse_digits rest) (2 ^ 64 - 1)
  | 45 :: rest => (2 ^ 64 - min (parse_digits rest) (2 ^ 64 - 1)) % 2 ^ 64
  | _ => min (parse_digits s1) (2 ^ 64 - 1)

/-- Tail of `conn_read` from the comment "By this point we must have an
expected_length": cache it in `rd_pos`, then compare with the bytes
received so far. -/
def conn_read_finish (c : Conn) (expected_length : Nat) : Conn :=
  let req := { c.request with rd_pos := expected_length }
  if sb_len req < expected_length then { c with request := req }
  else { c with request := { req with rd_pos := 0 }, state := ConnState.CONN_READY }

/-- `conn_read` (connslot.c lines 90-177).  `now` is the `time(NULL)`
result; `r` is the outcome of the non-blocking read. -/
def conn_read (c : Conn) (now : Int) (r : ReadResult) : Conn :=
  let c := { c with state := ConnState.CONN_READING }
  match r with
  | ReadResult.closed => { c with state := ConnState.CONN_CLOSED }
  | ReadResult.wouldblock => { c with state := ConnState.CONN_EMPTY }
  | ReadResult.ioerror => { c with state := ConnState.CONN_ERROR }
  | ReadResult.data bs =>
    let req := { c.request with str := c.request.str ++ bs }
    let c := { c with request := req, activity := now }
    if sb_len req < 4 then c
    else if req.rd_pos = 0 then
      match memmem req.str (sb_len req) crlfcrlf with
      | none => c
      | some p =>
        let body_pos := p + 4
        match memmem req.str body_pos contentLengthHeader with
        | none => { c with state := ConnState.CONN_READY }
        | some q =>
          let content_length := strtoul10 (req.str.drop (q + 15)) % 2 ^ 32
          conn_read_finish c ((body_pos + content_length) % 2 ^ 32)
    else conn_read_finish c req.rd_pos

/-- `conn_iswriter` (connslot.c lines 249-256). -/
def conn_iswriter (c : Conn) : Bool :=
  match c.state with
  | ConnState.CONN_SENDING => true
  | _ => false

/-- `conn_write` (connslot.c lines 179-247), POSIX branch; `sent` is the
(successful) `writev` result. -/
def conn_write (c : Conn) (now : Int) (sent : Nat) : Conn :=
  let c := { c with state := ConnState.CONN_SENDING }
  if c.fd = -1 then c
  else
    let end_pos := sb_len c.reply_header +
      (match c.reply with | some r => sb_len r | none => 0)
    let c := { c with reply_sendpos := c.reply_sendpos + sent }
    if end_pos ≤ c.reply_sendpos then
      { c with state := ConnState.CONN_EMPTY, reply_sendpos := 0,
               reply_header := sb_zero c.reply_header,
               request := sb_zero c.request, activity := now }
    else { c with activity := now }

/-- `conn_close` (connslot.c lines 258-262): `closesocket` then `conn_zero`. -/
def conn_close (c : Conn) : Conn := conn_zero c

/-- Modelled from the spec: the pool holds "up to `SLOTS_LISTEN` listening
sockets"; the constant lives in connslot.h, outside the sample.  Its value
is irrelevant to the claims. -/
def SLOTS_LISTEN : Nat := 5

structure Slots where
  nr_slots : Nat
  conn : List Conn
  listen : List Int
  nr_open : Int
  timeout : Int
deriving DecidableEq, Repr

/-- `FD_SET`: readiness sets are lists without duplicates. -/
def fd_set_insert (s : List Int) (fd : Int) : List Int :=
  if fd ∈ s then s else s ++ [fd]

/-- The slot scan of `slots_fdset` (connslot.c lines 514-529): add every
open fd to the readers set (and writers when sending), track `fdmax` and
re-count `nr_open`. -/
def slots_fdset_scan : List Conn → List Int → List Int → Int → Nat →
    List Int × List Int × Int × Nat
  | [], readers, writers, fdmax, nr_open => (readers, writers, fdmax, nr_open)
  | c :: rest, readers, writers, fdmax, nr_open =>
    if c.fd = -1 then slots_fdset_scan rest readers writers fdmax nr_open
    else
      slots_fdset_scan rest (fd_set_insert readers c.fd)
        (if conn_iswriter c then fd_set_insert writers c.fd else writers)
        (if fdmax < c.fd then c.fd else fdmax) (nr_open + 1)

/-- The listener loop of `slots_fdset` (connslot.c lines 533-540). -/
def slots_fdset_listen : List Int → List Int → Int → List Int × Int
  | [], readers, fdmax => (readers, fdmax)
  | f :: rest, readers, fdmax =>
    if f = -1 then slots_fdset_listen rest readers fdmax
    else slots_fdset_listen rest (fd_set_insert readers f) (if fdmax < f then f else fdmax)

/-- `slots_fdset` (connslot.c lines 508-544).  Returns
`(readers, writers, fdmax, slots with re-counted nr_open)`.  Note the C
guard is `slots->listen[0] && nr_open < nr_slots`: the first listener
is tested for truthiness (only fd 0 is falsy), not against -1. -/
def slots_fdset (s : Slots) (readers writers : List Int) :
    List Int × List Int × Int × Slots :=
  let scan := slots_fdset_scan s.conn readers writers 0 0
  let s := { s with nr_open := (scan.2.2.2 : Int) }
  if s.listen.getD 0 0 ≠ 0 ∧ s.nr_open < (s.nr_slots : Int) then
    let lis := slots_fdset_listen s.listen scan.1 scan.2.2.1
    (lis.1, scan.2.1, lis.2, s)
  else (scan.1, scan.2.1, scan.2.2.1, s)

/-- The slot search at the head of `slots_accept`. -/
def slots_find_empty : List Conn → Nat → Option Nat
  | [], _ => none
  | c :: rest, i => if c.fd = -1 then some i else slots_find_empty rest (i + 1)

/-- In-place update of the i-th list element. -/
def update_at {α : Type} : List α → Nat → (α → α) → List α
  | [], _, _ => []
  | x :: rest, 0, f => f x :: rest
  | x :: rest, n + 1, f => x :: update_at rest n f

/-- `slots_accept` (connslot.c lines 546-578).  `client` is the `accept`
result (it is only consulted after a free slot is found, as in C). -/
def slots_accept (s : Slots) (_listen_nr : Nat) (client : Int) (now : Int) :
    Int × Slots :=
  match slots_find_empty s.conn 0 with
  | none => (-2, s)
  | some i =>
    if client = -1 then (-1, s)
    else
      ((i : Int),
       { s with nr_open := s.nr_open + 1,
                conn := update_at s.conn i (fun c => { c with activity := now, fd := client }) })

/-- `slots_closeidle` (connslot.c lines 580-603). -/
def slots_closeidle (s : Slots) (now : Int) : Int × Slots :=
  let nr_closed :=
    (s.conn.filter (fun c => decide (c.fd ≠ -1) && decide (s.timeout < now - c.activity))).length
  let conn2 := s.conn.map
    (fun c => if c.fd ≠ -1 ∧ s.timeout < now - c.activity then conn_close c else c)
  let nr := s.nr_open - (nr_closed : Int)
  ((nr_closed : Int), { s with conn := conn2, nr_open := if nr < 0 then 0 else nr })

/-- The `fd == -1 → state == empty` direction of the claimed slot
invariant. -/
def conn_inv (c : Conn) : Prop := c.fd = -1 → c.state = ConnState.CONN_EMPTY

/-- A connection slot holding an open fd mid-request, as produced by
`slots_accept` + a first partial `conn_read`. -/
def conn0 : Conn :=
  Conn.mk 5 ConnState.CONN_READING (Strbuf.mk 0 []) none (Strbuf.mk 0 []) 0 0

/-- The completeness condition exactly as claim C5 states it: the received
bytes contain CR LF CR LF and, if `Content-Length:` occurs in the header
region, the bytes received reach header-end plus the parsed value. -/
def request_complete_claim (bs : List Nat) : Bool :=
  match memmem bs bs.length crlfcrlf with
  | none => false
  | some p =>
    match memmem bs (p + 4) contentLengthHeader with
    | none => true
    | some q => decide (p + 4 + strtoul10 (bs.drop (q + 15)) ≤ bs.length)

/-- The completeness condition amended to match the `unsigned int`
truncation the code applies to the parsed `Content-Length` value and to
the expected total length. -/
def request_complete_amended (bs : List Nat) : Bool :=
  match memmem bs bs.length crlfcrlf with
  | none => false
  | some p =>
    match memmem bs (p + 4) contentLengthHeader with
    | none => true
    | some q =>
      decide ((p + 4 + strtoul10 (bs.drop (q + 15)) % 2 ^ 32) % 2 ^ 32 ≤ bs.length)

/-- Bytes of `"GET / HTTP/1.0\r\n\r\n"`. -/
def getRequestBytes : List Nat :=
  [71, 69, 84, 32, 47, 32, 72, 84, 84, 80, 47, 49, 46, 48, 13, 10, 13, 10]

/-- Bytes of `"POST / HTTP/1.0\r\nContent-Length: 4294967296\r\n\r\n"`
(a declared length of 2^32, which the code truncates to 0). -/
def clOverflowRequest : List Nat :=
  [80, 79, 83, 84, 32, 47, 32, 72, 84, 84, 80, 47, 49, 46, 48, 13, 10,
   67, 111, 110, 116, 101, 110, 116, 45, 76, 101, 110, 103, 116, 104, 58, 32,
   52, 50, 57, 52, 57, 54, 55, 50, 57, 54, 13, 10, 13, 10]

/-! ## Replay-protected timestamps (src/n2n.c lines 706-818)

`gettimeofday` becomes the explicit inputs `tv_sec`/`tv_usec`, and the
module-level `previously_issued_time_stamp` becomes an explicit state
argument: `time_stamp` returns the new stamp, which is also the new state.
`TIME_STAMP_FRAME` and `TIME_STAMP_JITTER` are constants from a header
outside the sample and become explicit parameters. -/

/-- The "counter only" flag extraction
`co = (previously_issued_time_stamp << 63) >> 63` on `uint64_t`. -/
def ts_co (prev : Nat) : Nat := ((prev <<< 63) % 2 ^ 64) >>> 63

/-- The mask computation performed (twice) by `time_stamp`:
`mask_lo = -co; mask_lo >>= 32; mask_lo |= (~mask_lo) >> 52` on `uint64_t`,
yielding `0xFFFFFFFF` when the flag is set and `0xFFF` otherwise. -/
def ts_mask_lo (co : Nat) : Nat :=
  let m := ((2 ^ 64 - co) % 2 ^ 64) >>> 32
  m ||| (not64 m >>> 52)

/-- `time_stamp` (src/n2n.c lines 724-779), branchless arithmetic on
`uint64_t` values. -/
def time_stamp (previously_issued tv_sec tv_usec : Nat) : Nat :=
  let micro_seconds := ((tv_sec <<< 32) + (tv_usec <<< 12)) % 2 ^ 64
  let co := ts_co previously_issued
  let mask_lo := ts_mask_lo co
  let mask_hi := not64 mask_lo
  let hi_unchanged : Nat :=
    if (previously_issued &&& mask_hi) = (micro_seconds &&& mask_hi) then 1 else 0
  let counter := (previously_issued &&& mask_lo) >>> 4
  let counter := (counter + hi_unchanged) % 2 ^ 64
  let counter := counter &&& ((2 ^ 64 - hi_unchanged) % 2 ^ 64)
  let counter := (counter <<< 4) % 2 ^ 64
  let new_co := ((if (counter &&& mask_lo) = 0 then 1 else 0) &&& hi_unchanged) ||| co
  let mask_lo := ts_mask_lo new_co
  let mask_hi := not64 mask_lo
  ((micro_seconds &&& mask_hi) ||| counter) ||| new_co

/-- The counter-overflow condition of a `time_stamp` call: the first
conjunct of the `new_co` computation,
`((counter & mask_lo) == 0) & hi_unchanged`. -/
def time_stamp_overflows (previously_issued tv_sec tv_usec : Nat) : Bool :=
  let micro_seconds := ((tv_sec <<< 32) + (tv_usec <<< 12)) % 2 ^ 64
  let co := ts_co previously_issued
  let mask_lo := ts_mask_lo co
  let mask_hi := not64 mask_lo
  let hi_unchanged : Nat :=
    if (previously_issued &&& mask_hi) = (micro_seconds &&& mask_hi) then 1 else 0
  let counter := (previously_issued &&& mask_lo) >>> 4
  let counter := (counter + hi_unchanged) % 2 ^ 64
  let counter := counter &&& ((2 ^ 64 - hi_unchanged) % 2 ^ 64)
  let counter := (counter <<< 4) % 2 ^ 64
  decide ((counter &&& mask_lo) = 0 ∧ hi_unchanged = 1)

/-- `time_stamp_verify_and_update` (src/n2n.c lines 784-818).  Returns
`(accept, new previously-issued state, new *previous_stamp)`.  The inner
`time_stamp()` call advances the state.  `diff` values are 64-bit patterns
viewed as `int64_t` through `toInt64`; the C `-diff` is two's-complement
negation. -/
def time_stamp_verify_and_update (FRAME JITTER : Nat) (stamp : Nat)
    (previous_stamp : Option Nat) (allow_jitter : Bool)
    (state tv_sec tv_usec : Nat) : Bool × Nat × Option Nat :=
  let co := ts_co stamp
  let ts := time_stamp state tv_sec tv_usec
  let diff := (stamp + 2 ^ 64 - ts % 2 ^ 64) % 2 ^ 64
  let diff := if toInt64 diff < 0 then (2 ^ 64 - diff) % 2 ^ 64 else diff
  if (FRAME : Int) ≤ toInt64 diff then (false, ts, previous_stamp)
  else
    match previous_stamp with
    | none => (true, ts, none)
    | some prev =>
      let diff := (stamp + 2 ^ 64 - prev % 2 ^ 64) % 2 ^ 64
      let diff := if allow_jitter then
          (diff + (JITTER <<< (co <<< 3)) % 2 ^ 64) % 2 ^ 64
        else diff
      if toInt64 diff ≤ 0 then (false, ts, some prev)
      else (true, ts, some (if prev < stamp then stamp else prev))

/-- The claim's (and the C comment's) reading of the jitter allowance: "8
times higher jitter allowed for counter-only flagged timestamps", i.e.
`TIME_STAMP_JITTER × (counter-only ? 8 : 1)`, where the code instead
computes `TIME_STAMP_JITTER << (co << 3)` = `× 256`. -/
def time_stamp_verify_and_update_claim8 (FRAME JITTER : Nat) (stamp : Nat)
    (previous_stamp : Option Nat) (allow_jitter : Bool)
    (state tv_sec tv_usec : Nat) : Bool × Nat × Option Nat :=
  let co := ts_co stamp
  let ts := time_stamp state tv_sec tv_usec
  let diff := (stamp + 2 ^ 64 - ts % 2 ^ 64) % 2 ^ 64
  let diff := if toInt64 diff < 0 then (2 ^ 64 - diff) % 2 ^ 64 else diff
  if (FRAME : Int) ≤ toInt64 diff then (false, ts, previous_stamp)
  else
    match previous_stamp with
    | none => (true, ts, none)
    | some prev =>
      let diff := (stamp + 2 ^ 64 - prev % 2 ^ 64) % 2 ^ 64
      let diff := if allow_jitter then
          (diff + (JITTER * (if co = 1 then 8 else 1)) % 2 ^ 64) % 2 ^ 64
        else diff
      if toInt64 diff ≤ 0 then (false, ts, some prev)
      else (true, ts, some (if prev < stamp then stamp else prev))

/-- Arithmetic closed form of `time_stamp`, proved equal to it below for
in-range inputs: `k` is the width of the counter+flags field (32 with the
counter-only flag set, 12 otherwise), the high part is kept when unchanged,
the counter increments (resetting on a high-part change), and the overflow
step switches to counter-only mode keeping only the seconds. -/
def time_stamp_closed (s tv_sec tv_usec : Nat) : Nat :=
  let k := if s % 2 = 1 then 32 else 12
  let micro := tv_sec * 2 ^ 32 + tv_usec * 2 ^ 12
  if s / 2 ^ k * 2 ^ k = micro / 2 ^ k * 2 ^ k then
    if s % 2 ^ k / 2 ^ 4 + 1 < 2 ^ (k - 4) then
      micro / 2 ^ k * 2 ^ k + (s % 2 ^ k / 2 ^ 4 + 1) * 2 ^ 4 + s % 2
    else if s % 2 = 1 then
      (if tv_sec % 2 = 1 then tv_sec * 2 ^ 32 + 1 else tv_sec * 2 ^ 32 + 2 ^ 32 + 1)
    else tv_sec * 2 ^ 32 + 2 ^ 12 + 1
  else micro / 2 ^ k * 2 ^ k + s % 2

/-- Arithmetic form of the overflow condition, proved equal to
`time_stamp_overflows` below for in-range inputs. -/
def time_stamp_overflows_closed (s tv_sec tv_usec : Nat) : Bool :=
  let k := if s % 2 = 1 then 32 else 12
  let micro := tv_sec * 2 ^ 32 + tv_usec * 2 ^ 12
  decide (s / 2 ^ k * 2 ^ k = micro / 2 ^ k * 2 ^ k) &&
    decide (¬ (s % 2 ^ k / 2 ^ 4 + 1 < 2 ^ (k - 4)))

/-- A process-lifetime run of `time_stamp` at a fixed `gettimeofday`
reading: `previously_issued_time_stamp` starts at 0 and each call stores
its token; `time_stamp_iter n` is the token of the n-th call. -/
def time_stamp_iter : Nat → Nat → Nat → Nat
  | 0, _, _ => 0
  | n + 1, a, b => time_stamp (time_stamp_iter n a b) a b

/-! # Theorems -/

/-! ## Bit-arithmetic bridging lemmas -/

theorem and_two_pow_sub_one (x n : Nat) : x &&& (2 ^ n - 1) = x % 2 ^ n := by
  apply Nat.eq_of_testBit_eq
  intro i
  rw [Nat.testBit_land, Nat.testBit_two_pow_sub_one, Nat.testBit_mod_two_pow, Bool.and_comm]

theorem and_high (x k : Nat) (hx : x < 2 ^ 64) (hk : k ≤ 64) :
    x &&& (2 ^ 64 - 2 ^ k) = x / 2 ^ k * 2 ^ k := by
  have h64 : k + (64 - k) = 64 := by omega
  have hm : (2 : Nat) ^ 64 - 2 ^ k = 2 ^ k * (2 ^ (64 - k) - 1) + 0 := by
    rw [Nat.add_zero, Nat.mul_sub_one, ← Nat.pow_add, h64]
  have hr : x / 2 ^ k * 2 ^ k = 2 ^ k * (x / 2 ^ k) + 0 := by
    rw [Nat.add_zero, Nat.mul_comm]
  rw [hm, hr]
  apply Nat.eq_of_testBit_eq
  intro i
  rw [Nat.testBit_land,
    Nat.testBit_mul_pow_two_add _ (Nat.two_pow_pos k) i,
    Nat.testBit_mul_pow_two_add _ (Nat.two_pow_pos k) i]
  by_cases hik : i < k
  · simp [hik]
  · simp only [hik, if_false]
    rw [Nat.testBit_two_pow_sub_one]
    by_cases hi64 : i < 64
    · have : i - k < 64 - k := by omega
      have hdiv : (x / 2 ^ k).testBit (i - k) = x.testBit i := by
        rw [← Nat.shiftRight_eq_div_pow, Nat.testBit_shiftRight]
        congr 1
        omega
      simp [this, hdiv, Bool.and_comm]
    · have hbit : x.testBit i = false :=
        Nat.testBit_eq_false_of_lt
          (lt_of_lt_of_le hx (Nat.pow_le_pow_right (by norm_num) (by omega)))
      have hbig : ¬ (i - k < 64 - k) := by omega
      have hdiv : (x / 2 ^ k).testBit (i - k) = x.testBit i := by
        rw [← Nat.shiftRight_eq_div_pow, Nat.testBit_shiftRight]
        congr 1
        omega
      simp [hbig, hdiv, hbit]

theorem lor_mul_pow_add (a k b : Nat) (hb : b < 2 ^ k) :
    a * 2 ^ k ||| b = a * 2 ^ k + b := by
  rw [Nat.mul_comm]
  apply Nat.eq_of_testBit_eq
  intro j
  rw [Nat.testBit_lor, Nat.testBit_mul_pow_two_add a hb j]
  have hz : ∀ i : Nat, (2 ^ k * a).testBit i = if i < k then false else a.testBit (i - k) := by
    intro i
    have := Nat.testBit_mul_pow_two_add a (Nat.two_pow_pos k) i
    simpa using this
  by_cases hj : j < k
  · simp [hj, hz j]
  · have h2 : b.testBit j = false :=
      Nat.testBit_eq_false_of_lt
        (lt_of_lt_of_le hb (Nat.pow_le_pow_right (by norm_num) (by omega)))
    simp [hj, hz j, h2]

theorem lor_one_of_even (x : Nat) (hx : x % 2 = 0) : x ||| 1 = x + 1 := by
  have h : x = x / 2 * 2 ^ 1 := by omega
  rw [h, lor_mul_pow_add (x / 2) 1 1 (by norm_num)]

theorem lor_self_eq (x : Nat) : x ||| x = x := by
  apply Nat.eq_of_testBit_eq
  intro i
  rw [Nat.testBit_lor, Bool.or_self]

theorem ts_co_eq (s : Nat) : ts_co s = s % 2 := by
  unfold ts_co
  rw [Nat.shiftLeft_eq, Nat.shiftRight_eq_div_pow]
  omega

theorem ts_mask_lo_zero : ts_mask_lo 0 = 2 ^ 12 - 1 := by decide

theorem ts_mask_lo_one : ts_mask_lo 1 = 2 ^ 32 - 1 := by decide

/-! ## Theorems for C9 -/

/-- C9: `bitlen2mask(0) == 0`, `bitlen2mask(32) == 0xFFFFFFFF`, and
`mask2bitlen(bitlen2mask(k)) == k` for all `0 ≤ k ≤ 32`. -/
theorem bitlen2mask_mask2bitlen_roundtrip :
    bitlen2mask 0 = 0 ∧ bitlen2mask 32 = 0xFFFFFFFF ∧
    ∀ k : Nat, k ≤ 32 → mask2bitlen (bitlen2mask k) = k := by
  refine ⟨by decide, by decide, ?_⟩
  intro k hk
  have h : k < 33 := Nat.lt_succ_of_le hk
  revert h
  revert k
  decide

/-- Witness for C9 at `k = 24`. -/
theorem bitlen2mask_mask2bitlen_roundtrip_witness :
    (24 : Nat) ≤ 32 ∧ mask2bitlen (bitlen2mask 24) = 24 :=
  ⟨by decide, bitlen2mask_mask2bitlen_roundtrip.2.2 24 (by decide)⟩

/-! ## Theorems for C10 -/

/-- C10: for every socket whose family is anything other than `AF_INET6`
(including `AF_INVALID`), `sock_to_cstr` formats it as an IPv4 dotted-quad
string `a.b.c.d:port` from the v4 address bytes; it never fails for such a
family, and `NULL` is returned only when the output buffer is `NULL`. -/
theorem sock_to_cstr_non_ipv6 (ntop6 : List Nat → String) (sock : N2nSock)
    (hfam : sock.family ≠ AF_INET6) :
    sock_to_cstr ntop6 false sock =
      some (toString ((sock.v4.getD 0 0) % 256) ++ "." ++
            toString ((sock.v4.getD 1 0) % 256) ++ "." ++
            toString ((sock.v4.getD 2 0) % 256) ++ "." ++
            toString ((sock.v4.getD 3 0) % 256) ++ ":" ++
            toString (sock.port % 2 ^ 16)) ∧
    sock_to_cstr ntop6 true sock = none := by
  constructor
  · simp [sock_to_cstr, hfam]
  · simp [sock_to_cstr]

/-- Witness for C10: an uninitialized (`AF_INVALID`) socket is rendered as a
dotted quad, and a `NULL` output buffer yields `NULL`. -/
theorem sock_to_cstr_non_ipv6_witness :
    (N2nSock.mk AF_INVALID 1234 [10, 0, 0, 1] []).family ≠ AF_INET6 ∧
    sock_to_cstr (fun _ => "") false (N2nSock.mk AF_INVALID 1234 [10, 0, 0, 1] []) =
      some "10.0.0.1:1234" ∧
    sock_to_cstr (fun _ => "") true (N2nSock.mk AF_INVALID 1234 [10, 0, 0, 1] []) = none := by
  refine ⟨by decide, ?_, ?_⟩
  · have h := sock_to_cstr_non_ipv6 (fun _ => "")
      (N2nSock.mk AF_INVALID 1234 [10, 0, 0, 1] []) (by decide)
    rw [h.1]
    rfl
  · exact (sock_to_cstr_non_ipv6 (fun _ => "")
      (N2nSock.mk AF_INVALID 1234 [10, 0, 0, 1] []) (by decide)).2

/-! ## Theorems for C3 -/

/-- C3 (code bug): when resolution fails, the entry's error code is set but
the shadow socket buffer is NOT left unchanged: `supernode2sock`
unconditionally overwrites `family` with `AF_INVALID` (and the port, once
parsed) before any failure return, contradicting the comment in
`resolve_check` ("sockets do not get overwritten in case of error in
resolve_thread").  Evaluated at a concrete failing entry. -/
theorem resolve_failure_clobbers_shadow :
    (resolve_thread_entry (fun _ => none)
        (ResolveEntry.mk [98, 97, 100, 104, 111, 115, 116, 58, 53, 54, 52, 53]
          (N2nSock.mk AF_INET 1234 [10, 0, 0, 1] []) 0)).error_code
      = -2 ∧
    (resolve_thread_entry (fun _ => none)
        (ResolveEntry.mk [98, 97, 100, 104, 111, 115, 116, 58, 53, 54, 52, 53]
          (N2nSock.mk AF_INET 1234 [10, 0, 0, 1] []) 0)).sock
      ≠ N2nSock.mk AF_INET 1234 [10, 0, 0, 1] [] ∧
    (resolve_thread_entry (fun _ => none)
        (ResolveEntry.mk [98, 97, 100, 104, 111, 115, 116, 58, 53, 54, 52, 53]
          (N2nSock.mk AF_INET 1234 [10, 0, 0, 1] []) 0)).sock.family
      = AF_INVALID := by
  refine ⟨?_, ?_, ?_⟩ <;> decide

/-! ## Theorems for C7 -/

/-- C7: `add_or_update` searches by MAC when the MAC is non-null, else by
socket; a record found by socket whose MAC was null before the call is
re-keyed to the given MAC; and when nothing is found in `add` mode a new
peer is created with the default selection criterion and the given socket. -/
theorem add_sn_to_list_by_mac_or_sock_spec :
    (∀ l sock mac sa p, is_null_mac mac = false →
        l.find? (fun q => decide (q.mac_addr = mac)) = some p →
        add_sn_to_list_by_mac_or_sock l sock mac sa = (l, some p, sa)) ∧
    (∀ l sock mac sa scan, is_null_mac mac = true →
        l.find? (fun p => decide (p.sock = sock)) = some scan →
        add_sn_to_list_by_mac_or_sock l sock mac sa = (l, some scan, sa)) ∧
    (∀ l sock mac sa scan, is_null_mac mac = false →
        l.find? (fun q => decide (q.mac_addr = mac)) = none →
        l.find? (fun p => decide (p.sock = sock)) = some scan →
        is_null_mac scan.mac_addr = true →
        add_sn_to_list_by_mac_or_sock l sock mac sa =
          (l.eraseP (fun p => decide (p.sock = sock)) ++ [{ scan with mac_addr := mac }],
           some { scan with mac_addr := mac }, sa)) ∧
    (∀ l sock mac, (if is_null_mac mac then none
            else l.find? (fun q => decide (q.mac_addr = mac))) = none →
        l.find? (fun p => decide (p.sock = sock)) = none →
        add_sn_to_list_by_mac_or_sock l sock mac SN_ADD =
          (l ++ [PeerInfo.mk mac sock sn_selection_criterion_default],
           some (PeerInfo.mk mac sock sn_selection_criterion_default), SN_ADD_ADDED)) := by
  refine ⟨?_, ?_, ?_, ?_⟩
  · intro l sock mac sa p hnn hfind
    simp [add_sn_to_list_by_mac_or_sock, hnn, hfind]
  · intro l sock mac sa scan hnull hfind
    simp [add_sn_to_list_by_mac_or_sock, hnull, hfind]
  · intro l sock mac sa scan hnn hmac hsock hscan
    simp [add_sn_to_list_by_mac_or_sock, hnn, hmac, hsock]
  · intro l sock mac hmac hsock
    simp only [add_sn_to_list_by_mac_or_sock, hmac, hsock]
    simp [SN_ADD]

/-- Witness for C7: exercises the mac-hit, sock-hit and add branches at
concrete inputs. -/
theorem add_sn_to_list_by_mac_or_sock_spec_witness :
    (is_null_mac [1, 2, 3, 4, 5, 6] = false ∧
      [PeerInfo.mk [1, 2, 3, 4, 5, 6] (N2nSock.mk AF_INET 7 [9, 9, 9, 9] []) 3].find?
          (fun q => decide (q.mac_addr = [1, 2, 3, 4, 5, 6])) =
        some (PeerInfo.mk [1, 2, 3, 4, 5, 6] (N2nSock.mk AF_INET 7 [9, 9, 9, 9] []) 3) ∧
      add_sn_to_list_by_mac_or_sock
          [PeerInfo.mk [1, 2, 3, 4, 5, 6] (N2nSock.mk AF_INET 7 [9, 9, 9, 9] []) 3]
          (N2nSock.mk AF_INET 8 [1, 1, 1, 1] []) [1, 2, 3, 4, 5, 6] 0 =
        ([PeerInfo.mk [1, 2, 3, 4, 5, 6] (N2nSock.mk AF_INET 7 [9, 9, 9, 9] []) 3],
         some (PeerInfo.mk [1, 2, 3, 4, 5, 6] (N2nSock.mk AF_INET 7 [9, 9, 9, 9] []) 3), 0)) ∧
    (add_sn_to_list_by_mac_or_sock
          [PeerInfo.mk null_mac (N2nSock.mk AF_INET 7 [9, 9, 9, 9] []) 3]
          (N2nSock.mk AF_INET 7 [9, 9, 9, 9] []) [1, 2, 3, 4, 5, 6] 0 =
        ([PeerInfo.mk [1, 2, 3, 4, 5, 6] (N2nSock.mk AF_INET 7 [9, 9, 9, 9] []) 3],
         some (PeerInfo.mk [1, 2, 3, 4, 5, 6] (N2nSock.mk AF_INET 7 [9, 9, 9, 9] []) 3), 0)) ∧
    (add_sn_to_list_by_mac_or_sock []
          (N2nSock.mk AF_INET 7 [9, 9, 9, 9] []) [1, 2, 3, 4, 5, 6] SN_ADD =
        ([PeerInfo.mk [1, 2, 3, 4, 5, 6] (N2nSock.mk AF_INET 7 [9, 9, 9, 9] [])
            sn_selection_criterion_default],
         some (PeerInfo.mk [1, 2, 3, 4, 5, 6] (N2nSock.mk AF_INET 7 [9, 9, 9, 9] [])
            sn_selection_criterion_default), SN_ADD_ADDED)) := by
  refine ⟨⟨by decide, by decide, ?_⟩, ?_, ?_⟩
  · exact add_sn_to_list_by_mac_or_sock_spec.1
      [PeerInfo.mk [1, 2, 3, 4, 5, 6] (N2nSock.mk AF_INET 7 [9, 9, 9, 9] []) 3]
      (N2nSock.mk AF_INET 8 [1, 1, 1, 1] []) [1, 2, 3, 4, 5, 6] 0
      (PeerInfo.mk [1, 2, 3, 4, 5, 6] (N2nSock.mk AF_INET 7 [9, 9, 9, 9] []) 3)
      (by decide) (by decide)
  · have h := add_sn_to_list_by_mac_or_sock_spec.2.2.1
      [PeerInfo.mk null_mac (N2nSock.mk AF_INET 7 [9, 9, 9, 9] []) 3]
      (N2nSock.mk AF_INET 7 [9, 9, 9, 9] []) [1, 2, 3, 4, 5, 6] 0
      (PeerInfo.mk null_mac (N2nSock.mk AF_INET 7 [9, 9, 9, 9] []) 3)
      (by decide) (by decide) (by decide) (by decide)
    rw [h]
    decide
  · have h := add_sn_to_list_by_mac_or_sock_spec.2.2.2 []
      (N2nSock.mk AF_INET 7 [9, 9, 9, 9] []) [1, 2, 3, 4, 5, 6]
      (by decide) (by decide)
    rw [h]
    rfl

/-! ## Helper lemmas about the slot operations -/

theorem conn_read_fd (c : Conn) (now : Int) (r : ReadResult) :
    (conn_read c now r).fd = c.fd := by
  cases r with
  | closed => rfl
  | wouldblock => rfl
  | ioerror => rfl
  | data bs =>
    simp only [conn_read, conn_read_finish]
    repeat' split
    all_goals rfl

theorem conn_write_fd (c : Conn) (now : Int) (sent : Nat) :
    (conn_write c now sent).fd = c.fd := by
  simp only [conn_write]
  repeat' split
  all_goals rfl

theorem mem_update_at {α : Type} (l : List α) (i : Nat) (f : α → α) (x : α)
    (hx : x ∈ update_at l i f) : x ∈ l ∨ ∃ y ∈ l, x = f y := by
  induction l generalizing i with
  | nil => simp [update_at] at hx
  | cons a rest ih =>
    cases i with
    | zero =>
      simp only [update_at, List.mem_cons] at hx
      rcases hx with h | h
      · exact Or.inr ⟨a, List.mem_cons_self a rest, h⟩
      · exact Or.inl (List.mem_cons_of_mem a h)
    | succ n =>
      simp only [update_at, List.mem_cons] at hx
      rcases hx with h | h
      · exact Or.inl (h ▸ List.mem_cons_self a rest)
      · rcases ih n h with h2 | ⟨y, hy, he⟩
        · exact Or.inl (List.mem_cons_of_mem a h2)
        · exact Or.inr ⟨y, List.mem_cons_of_mem a hy, he⟩

theorem slots_find_empty_none (l : List Conn) (i : Nat)
    (h : ∀ c ∈ l, c.fd ≠ -1) : slots_find_empty l i = none := by
  induction l generalizing i with
  | nil => rfl
  | cons c rest ih =>
    simp only [slots_find_empty]
    rw [if_neg (h c (List.mem_cons_self c rest))]
    exact ih (i + 1) (fun x hx => h x (List.mem_cons_of_mem c hx))

theorem fd_set_insert_mem (s : List Int) (fd f : Int)
    (h : f ∈ fd_set_insert s fd) : f ∈ s ∨ f = fd := by
  unfold fd_set_insert at h
  split at h
  · exact Or.inl h
  · rcases List.mem_append.1 h with h | h
    · exact Or.inl h
    · exact Or.inr (List.mem_singleton.1 h)

theorem fd_set_insert_sub (s : List Int) (fd f : Int) (h : f ∈ s) :
    f ∈ fd_set_insert s fd := by
  unfold fd_set_insert
  split
  · exact h
  · exact List.mem_append.2 (Or.inl h)

theorem fd_set_insert_self (s : List Int) (fd : Int) : fd ∈ fd_set_insert s fd := by
  unfold fd_set_insert
  split
  · assumption
  · exact List.mem_append.2 (Or.inr (List.mem_singleton.2 rfl))

theorem slots_fdset_scan_readers (l : List Conn) (r w : List Int) (m : Int) (n : Nat)
    (f : Int) (h : f ∈ (slots_fdset_scan l r w m n).1) :
    f ∈ r ∨ ∃ c ∈ l, c.fd = f := by
  induction l generalizing r w m n with
  | nil => exact Or.inl h
  | cons c rest ih =>
    simp only [slots_fdset_scan] at h
    split at h
    · rcases ih _ _ _ _ h with h2 | ⟨c2, hc2, he⟩
      · exact Or.inl h2
      · exact Or.inr ⟨c2, List.mem_cons_of_mem c hc2, he⟩
    · rcases ih _ _ _ _ h with h2 | ⟨c2, hc2, he⟩
      · rcases fd_set_insert_mem r c.fd f h2 with h3 | h3
        · exact Or.inl h3
        · exact Or.inr ⟨c, List.mem_cons_self c rest, h3.symm⟩
      · exact Or.inr ⟨c2, List.mem_cons_of_mem c hc2, he⟩

theorem slots_fdset_scan_count (l : List Conn) (r w : List Int) (m : Int) (n : Nat) :
    (slots_fdset_scan l r w m n).2.2.2 = n + l.countP (fun c => decide (c.fd ≠ -1)) := by
  induction l generalizing r w m n with
  | nil => simp [slots_fdset_scan]
  | cons c rest ih =>
    simp only [slots_fdset_scan, List.countP_cons]
    split
    · rename_i hfd
      rw [ih]
      simp [hfd]
    · rename_i hfd
      rw [ih]
      simp only [decide_eq_true_eq]
      have : (decide (c.fd ≠ -1)) = true := decide_eq_true hfd
      rw [if_pos (by simpa using hfd)]
      omega

theorem slots_fdset_scan_readers_sub (l : List Conn) (r w : List Int) (m : Int) (n : Nat)
    (f : Int) (h : f ∈ r) : f ∈ (slots_fdset_scan l r w m n).1 := by
  induction l generalizing r w m n with
  | nil => exact h
  | cons c rest ih =>
    simp only [slots_fdset_scan]
    split
    · exact ih _ _ _ _ h
    · exact ih _ _ _ _ (fd_set_insert_sub r c.fd f h)

theorem slots_fdset_listen_mem (ls : List Int) (r : List Int) (m : Int) (f : Int) :
    (f ∈ r → f ∈ (slots_fdset_listen ls r m).1) ∧
    (f ∈ ls → f ≠ -1 → f ∈ (slots_fdset_listen ls r m).1) := by
  induction ls generalizing r m with
  | nil =>
    refine ⟨fun h => h, fun h _ => absurd h (List.not_mem_nil f)⟩
  | cons g rest ih =>
    constructor
    · intro h
      simp only [slots_fdset_listen]
      split
      · exact (ih r m).1 h
      · exact (ih _ _).1 (fd_set_insert_sub r g f h)
    · intro h hne
      simp only [slots_fdset_listen]
      rcases List.mem_cons.1 h with h1 | h1
      · subst h1
        rw [if_neg hne]
        exact (ih _ _).1 (fd_set_insert_self r f)
      · split
        · exact (ih r m).2 h1 hne
        · exact (ih _ _).2 h1 hne

theorem countP_open_lt_length (l : List Conn) (hex : ∃ c ∈ l, c.fd = -1) :
    l.countP (fun c => decide (c.fd ≠ -1)) < l.length := by
  induction l with
  | nil => simp at hex
  | cons c rest ih =>
    rcases hex with ⟨c2, hc2, he⟩
    rcases List.mem_cons.1 hc2 with h1 | h1
    · subst h1
      have hle := List.countP_le_length (p := fun c : Conn => decide (c.fd ≠ -1)) (l := rest)
      simp only [List.countP_cons, he, List.length_cons]
      rw [show (decide ((-1 : Int) ≠ -1)) = false from by decide,
          if_neg (by decide : ¬ (false = true))]
      omega
    · have hlt := ih ⟨c2, h1, he⟩
      simp only [List.countP_cons, List.length_cons]
      split <;> omega

/-! ## Theorems for C4 -/

/-- C4 (counterexample): the equivalence `fd == -1 ⇔ state == CONN_EMPTY`
holds of an open slot mid-read, but a would-block `conn_read` breaks it:
the slot returns to `CONN_EMPTY` while its fd stays open (connslot.c
lines 112-115). -/
theorem conn_read_wouldblock_breaks_equiv :
    ((conn0.fd = -1) ↔ (conn0.state = ConnState.CONN_EMPTY)) ∧
    ¬ (((conn_read conn0 0 ReadResult.wouldblock).fd = -1) ↔
       ((conn_read conn0 0 ReadResult.wouldblock).state = ConnState.CONN_EMPTY)) := by
  decide

/-- C4 (amended): only the direction `fd == -1 → state == CONN_EMPTY` is an
invariant, and `conn_read`/`conn_write` maintain it only when they are
called on slots with an open fd, as the event loop does; the converse
fails (`slots_accept` leaves an occupied slot in state `CONN_EMPTY`, and
`conn_read`'s would-block path returns an open slot to `CONN_EMPTY`). -/
theorem slot_ops_preserve_fd_empty :
    (∀ c, conn_inv (conn_zero c)) ∧
    (∀ c, conn_inv (conn_close c)) ∧
    (∀ c now r, c.fd ≠ -1 → conn_inv (conn_read c now r)) ∧
    (∀ c now sent, c.fd ≠ -1 → conn_inv (conn_write c now sent)) ∧
    (∀ s ln client now c, (∀ x ∈ s.conn, conn_inv x) →
        c ∈ (slots_accept s ln client now).2.conn → conn_inv c) ∧
    (∀ s now c, (∀ x ∈ s.conn, conn_inv x) →
        c ∈ (slots_closeidle s now).2.conn → conn_inv c) := by
  refine ⟨?_, ?_, ?_, ?_, ?_, ?_⟩
  · intro c _
    rfl
  · intro c _
    rfl
  · intro c now r hfd h
    rw [conn_read_fd] at h
    exact absurd h hfd
  · intro c now sent hfd h
    rw [conn_write_fd] at h
    exact absurd h hfd
  · intro s ln client now c hall hc
    simp only [slots_accept] at hc
    split at hc
    · exact hall c hc
    · split at hc
      · exact hall c hc
      · rename_i hcl
        rcases mem_update_at _ _ _ _ hc with h1 | ⟨y, _, he⟩
        · exact hall c h1
        · intro hfd
          rw [he] at hfd
          exact absurd hfd hcl
  · intro s now c hall hc
    simp only [slots_closeidle] at hc
    rcases List.mem_map.1 hc with ⟨y, hy, he⟩
    by_cases hcond : y.fd ≠ -1 ∧ s.timeout < now - y.activity
    · rw [if_pos hcond] at he
      intro _
      rw [← he]
      rfl
    · rw [if_neg hcond] at he
      rw [← he]
      exact hall y hy

/-- Witness for C4 (amended), exercising every conjunct at concrete
inputs. -/
theorem slot_ops_preserve_fd_empty_witness :
    conn_inv (conn_zero conn0) ∧
    conn_inv (conn_close conn0) ∧
    (conn0.fd ≠ -1 ∧ conn_inv (conn_read conn0 0 ReadResult.wouldblock)) ∧
    (conn0.fd ≠ -1 ∧ conn_inv (conn_write conn0 0 3)) ∧
    conn_inv ((slots_accept (Slots.mk 1 [conn_zero conn0] [3, -1, -1, -1, -1] 0 60)
        0 7 0).2.conn.getD 0 conn0) ∧
    conn_inv ((slots_closeidle (Slots.mk 1 [conn0] [3, -1, -1, -1, -1] 1 60)
        100 ).2.conn.getD 0 conn0) := by
  have h5 : conn_inv ((slots_accept (Slots.mk 1 [conn_zero conn0] [3, -1, -1, -1, -1] 0 60)
      0 7 0).2.conn.getD 0 conn0) := by
    apply slot_ops_preserve_fd_empty.2.2.2.2.1
      (Slots.mk 1 [conn_zero conn0] [3, -1, -1, -1, -1] 0 60) 0 7 0
    · intro x hx
      rw [List.mem_singleton] at hx
      subst hx
      intro _
      rfl
    · decide
  have h6 : conn_inv ((slots_closeidle (Slots.mk 1 [conn0] [3, -1, -1, -1, -1] 1 60)
      100).2.conn.getD 0 conn0) := by
    apply slot_ops_preserve_fd_empty.2.2.2.2.2
      (Slots.mk 1 [conn0] [3, -1, -1, -1, -1] 1 60) 100
    · intro x hx
      rw [List.mem_singleton] at hx
      subst hx
      intro h
      exact absurd h (by decide)
    · decide
  exact ⟨slot_ops_preserve_fd_empty.1 conn0,
         slot_ops_preserve_fd_empty.2.1 conn0,
         ⟨by decide, slot_ops_preserve_fd_empty.2.2.1 conn0 0 ReadResult.wouldblock (by decide)⟩,
         ⟨by decide, slot_ops_preserve_fd_empty.2.2.2.1 conn0 0 3 (by decide)⟩,
         h5, h6⟩

/-! ## Theorems for C6 -/

/-- C6: when every slot is occupied, `slots_fdset` adds no listen fd to the
readers set (only already-present fds and open slot fds appear),
`slots_accept` returns -2 without accepting and without touching any
slot, and once a slot is free again `slots_fdset` advertises every
listener. -/
theorem slots_full_pool_sheds_load :
    (∀ s readers writers f, s.conn.length = s.nr_slots →
        (∀ c ∈ s.conn, c.fd ≠ -1) →
        f ∈ (slots_fdset s readers writers).1 →
        f ∈ readers ∨ ∃ c ∈ s.conn, c.fd = f) ∧
    (∀ s ln client now, (∀ c ∈ s.conn, c.fd ≠ -1) →
        slots_accept s ln client now = (-2, s)) ∧
    (∀ s readers writers f, s.conn.length = s.nr_slots →
        s.listen.getD 0 0 ≠ 0 → (∃ c ∈ s.conn, c.fd = -1) →
        f ∈ s.listen → f ≠ -1 →
        f ∈ (slots_fdset s readers writers).1) := by
  refine ⟨?_, ?_, ?_⟩
  · intro s readers writers f hlen hall hf
    have hcount : s.conn.countP (fun c => decide (c.fd ≠ -1)) = s.conn.length :=
      List.countP_eq_length.2 (fun c hc => decide_eq_true (hall c hc))
    have hno : ¬ (s.listen.getD 0 0 ≠ 0 ∧
        ((slots_fdset_scan s.conn readers writers 0 0).2.2.2 : Int) < (s.nr_slots : Int)) := by
      rw [slots_fdset_scan_count, Nat.zero_add, hcount, hlen]
      intro hcontra
      exact absurd hcontra.2 (by omega)
    simp only [slots_fdset] at hf
    rw [if_neg hno] at hf
    exact slots_fdset_scan_readers _ _ _ _ _ _ hf
  · intro s ln client now hall
    simp only [slots_accept]
    rw [slots_find_empty_none s.conn 0 hall]
  · intro s readers writers f hlen hlis hex hf hne
    have hcount := countP_open_lt_length s.conn hex
    have hyes : s.listen.getD 0 0 ≠ 0 ∧
        ((slots_fdset_scan s.conn readers writers 0 0).2.2.2 : Int) < (s.nr_slots : Int) := by
      rw [slots_fdset_scan_count, Nat.zero_add]
      refine ⟨hlis, ?_⟩
      rw [← hlen]
      omega
    simp only [slots_fdset]
    rw [if_pos hyes]
    exact (slots_fdset_listen_mem s.listen _ _ f).2 hf hne

/-- Witness for C6: a full one-slot pool does not advertise listener fd 3
but still advertises the open slot fd 5; a pool with a free slot
advertises fd 3; `slots_accept` on the full pool returns -2 unchanged. -/
theorem slots_full_pool_sheds_load_witness :
    ((5 : Int) ∈ (slots_fdset (Slots.mk 1 [conn0] [3, -1, -1, -1, -1] 1 60) [] []).1 →
      (5 : Int) ∈ ([] : List Int) ∨
        ∃ c ∈ [conn0], c.fd = (5 : Int)) ∧
    slots_accept (Slots.mk 1 [conn0] [3, -1, -1, -1, -1] 1 60) 0 7 0 =
      (-2, Slots.mk 1 [conn0] [3, -1, -1, -1, -1] 1 60) ∧
    (3 : Int) ∈ (slots_fdset (Slots.mk 1 [conn_zero conn0] [3, -1, -1, -1, -1] 0 60) [] []).1 := by
  refine ⟨?_, ?_, ?_⟩
  · intro h
    exact slots_full_pool_sheds_load.1 (Slots.mk 1 [conn0] [3, -1, -1, -1, -1] 1 60) [] [] 5
      (by decide) (by decide) h
  · exact slots_full_pool_sheds_load.2.1 (Slots.mk 1 [conn0] [3, -1, -1, -1, -1] 1 60) 0 7 0
      (by decide)
  · exact slots_full_pool_sheds_load.2.2 (Slots.mk 1 [conn_zero conn0] [3, -1, -1, -1, -1] 0 60)
      [] [] 3 (by decide) (by decide) ⟨conn_zero conn0, by decide, by decide⟩
      (by decide) (by decide)

/-! ## Theorems for C5 -/

theorem memmem_none_of_short (bs needle : List Nat) (h : bs.length < needle.length) :
    memmem bs bs.length needle = none := by
  unfold memmem
  rw [List.find?_eq_none]
  intro i _
  simp only [Bool.and_eq_true, decide_eq_true_eq, not_and]
  intro hle
  exact absurd hle (by omega)

/-- C5 (amended): on a fresh connection, `conn_read` marks the request
`CONN_READY` exactly when the received bytes contain CR LF CR LF and, if
`Content-Length:` occurs in the header region, the bytes received reach
header-end plus the parsed value reduced modulo 2^32 (the code stores the
`strtoul` result in an `unsigned int`). -/
theorem conn_read_ready_iff (c : Conn) (now : Int) (bs : List Nat)
    (hreq : c.request.str = []) (hrd : c.request.rd_pos = 0) :
    (conn_read c now (ReadResult.data bs)).state = ConnState.CONN_READY ↔
      request_complete_amended bs = true := by
  have hbs : c.request.str ++ bs = bs := by rw [hreq]; rfl
  by_cases h4 : bs.length < 4
  · have hm : memmem bs bs.length crlfcrlf = none :=
      memmem_none_of_short bs crlfcrlf (by simp only [crlfcrlf]; simpa using h4)
    simp [conn_read, sb_len, hbs, hrd, request_complete_amended, h4, hm]
  · cases hm : memmem bs bs.length crlfcrlf with
    | none => simp [conn_read, sb_len, hbs, hrd, request_complete_amended, h4, hm]
    | some p =>
      cases hcl : memmem bs (p + 4) contentLengthHeader with
      | none => simp [conn_read, sb_len, hbs, hrd, request_complete_amended, h4, hm, hcl]
      | some q =>
        simp only [conn_read, sb_len, hbs, hrd, request_complete_amended, h4, hm, hcl,
          conn_read_finish, if_false]
        by_cases hlen :
            bs.length < (p + 4 + strtoul10 (bs.drop (q + 15))) % 4294967296
        · simp [hlen]
        · simp [hlen]
          omega

/-- Witness for C5 (amended): a bare `GET / HTTP/1.0` request reaches
`CONN_READY` at the final LF. -/
theorem conn_read_ready_iff_witness :
    conn0.request.str = [] ∧ conn0.request.rd_pos = 0 ∧
    (conn_read conn0 0 (ReadResult.data getRequestBytes)).state = ConnState.CONN_READY :=
  ⟨rfl, rfl, (conn_read_ready_iff conn0 0 getRequestBytes rfl rfl).mpr (by decide)⟩

/-- C5 (counterexample): a request declaring `Content-Length: 4294967296`
is marked `CONN_READY` at end-of-headers (the value is truncated to 0 by
the `unsigned int` store), while the claim's condition — total bytes at
least header-end plus the parsed base-10 integer — is not satisfied. -/
theorem conn_read_content_length_truncation :
    (conn_read conn0 0 (ReadResult.data clOverflowRequest)).state = ConnState.CONN_READY ∧
    request_complete_claim clOverflowRequest = false := by
  constructor
  · decide
  · decide


/-! ## Timestamp lemmas -/

theorem lor_zero_eq (x : Nat) : x ||| 0 = x := by
  apply Nat.eq_of_testBit_eq
  intro i
  rw [Nat.testBit_lor, Nat.zero_testBit, Bool.or_false]

theorem and_zero_eq (x : Nat) : x &&& 0 = 0 := by
  apply Nat.eq_of_testBit_eq
  intro i
  rw [Nat.testBit_land, Nat.zero_testBit, Bool.and_false]

theorem and_zero_lor_zero (y : Nat) : (y &&& 0) ||| 0 = 0 := by
  rw [and_zero_eq, lor_zero_eq]

theorem and_zero_lor_one (y : Nat) : (y &&& 0) ||| 1 = 1 := by
  rw [and_zero_eq]
  rfl

theorem time_stamp_eq_closed (s tv_sec tv_usec : Nat) (hs : s < 2 ^ 64)
    (hsec : tv_sec < 2 ^ 32) (husec : tv_usec < 2 ^ 20) :
    time_stamp s tv_sec tv_usec = time_stamp_closed s tv_sec tv_usec := by
  have hM : ((tv_sec <<< 32) + (tv_usec <<< 12)) % 2 ^ 64
      = tv_sec * 2 ^ 32 + tv_usec * 2 ^ 12 := by
    rw [Nat.shiftLeft_eq, Nat.shiftLeft_eq]
    apply Nat.mod_eq_of_lt
    omega
  have hMlt : tv_sec * 2 ^ 32 + tv_usec * 2 ^ 12 < 2 ^ 64 := by omega
  rcases Nat.mod_two_eq_zero_or_one s with hpar | hpar
  · simp only [time_stamp, time_stamp_closed]
    rw [hM, ts_co_eq, hpar, ts_mask_lo_zero]
    rw [show not64 (2 ^ 12 - 1) = 2 ^ 64 - 2 ^ 12 from by decide]
    rw [and_high s 12 hs (by norm_num), and_high _ 12 hMlt (by norm_num)]
    simp only [and_two_pow_sub_one, Nat.shiftRight_eq_div_pow, Nat.shiftLeft_eq,
      show ((0:Nat) = 1) = False from by simp, if_false]
    by_cases hhu : s / 2 ^ 12 * 2 ^ 12 =
        (tv_sec * 2 ^ 32 + tv_usec * 2 ^ 12) / 2 ^ 12 * 2 ^ 12
    · simp only [if_pos hhu]
      have hC : ((s % 2 ^ 12 / 2 ^ 4 + 1) % 2 ^ 64 &&& (2 ^ 64 - 1) % 2 ^ 64) * 2 ^ 4 % 2 ^ 64
          = (s % 2 ^ 12 / 2 ^ 4 + 1) * 2 ^ 4 := by
        rw [Nat.mod_eq_of_lt (show s % 2 ^ 12 / 2 ^ 4 + 1 < 2 ^ 64 by omega),
          Nat.mod_eq_of_lt (show (2:Nat) ^ 64 - 1 < 2 ^ 64 by omega),
          and_two_pow_sub_one,
          Nat.mod_eq_of_lt (show s % 2 ^ 12 / 2 ^ 4 + 1 < 2 ^ 64 by omega)]
        exact Nat.mod_eq_of_lt (by omega)
      rw [hC]
      by_cases hov : s % 2 ^ 12 / 2 ^ 4 + 1 < 2 ^ (12 - 4)
      · have hnz : ¬ ((s % 2 ^ 12 / 2 ^ 4 + 1) * 2 ^ 4 % 2 ^ 12 = 0) := by omega
        simp only [if_neg hnz, if_pos hov]
        rw [show ((0:Nat) &&& 1 ||| 0) = 0 from by decide, ts_mask_lo_zero,
          show not64 (2 ^ 12 - 1) = 2 ^ 64 - 2 ^ 12 from by decide,
          and_high _ 12 hMlt (by norm_num), lor_zero_eq,
          lor_mul_pow_add _ 12 _ (show (s % 2 ^ 12 / 2 ^ 4 + 1) * 2 ^ 4 < 2 ^ 12 by omega)]
        omega
      · have hz : (s % 2 ^ 12 / 2 ^ 4 + 1) * 2 ^ 4 % 2 ^ 12 = 0 := by omega
        simp only [if_pos hz, if_neg hov]
        rw [show ((1:Nat) &&& 1 ||| 0) = 1 from by decide, ts_mask_lo_one,
          show not64 (2 ^ 32 - 1) = 2 ^ 64 - 2 ^ 32 from by decide,
          and_high _ 32 hMlt (by norm_num),
          show (tv_sec * 2 ^ 32 + tv_usec * 2 ^ 12) / 2 ^ 32 = tv_sec from by omega,
          show (s % 2 ^ 12 / 2 ^ 4 + 1) * 2 ^ 4 = 2 ^ 12 from by omega,
          lor_mul_pow_add tv_sec 32 (2 ^ 12) (by norm_num),
          lor_one_of_even _ (by omega)]
    · simp only [if_neg hhu]
      have hC0 : ((s % 2 ^ 12 / 2 ^ 4 + 0) % 2 ^ 64 &&& (2 ^ 64 - 0) % 2 ^ 64) * 2 ^ 4 % 2 ^ 64
          = 0 := by
        rw [show ((2:Nat) ^ 64 - 0) % 2 ^ 64 = 0 from by omega, and_zero_eq]
        norm_num
      rw [hC0, and_zero_lor_zero, ts_mask_lo_zero,
        show not64 (2 ^ 12 - 1) = 2 ^ 64 - 2 ^ 12 from by decide,
        and_high _ 12 hMlt (by norm_num), lor_zero_eq, lor_zero_eq]
      omega
  · simp only [time_stamp, time_stamp_closed]
    rw [hM, ts_co_eq, hpar, ts_mask_lo_one]
    rw [show not64 (2 ^ 32 - 1) = 2 ^ 64 - 2 ^ 32 from by decide]
    rw [and_high s 32 hs (by norm_num), and_high _ 32 hMlt (by norm_num)]
    simp only [and_two_pow_sub_one, Nat.shiftRight_eq_div_pow, Nat.shiftLeft_eq,
      show ((1:Nat) = 1) = True from by simp, if_true]
    by_cases hhu : s / 2 ^ 32 * 2 ^ 32 =
        (tv_sec * 2 ^ 32 + tv_usec * 2 ^ 12) / 2 ^ 32 * 2 ^ 32
    · simp only [if_pos hhu]
      have hC : ((s % 2 ^ 32 / 2 ^ 4 + 1) % 2 ^ 64 &&& (2 ^ 64 - 1) % 2 ^ 64) * 2 ^ 4 % 2 ^ 64
          = (s % 2 ^ 32 / 2 ^ 4 + 1) * 2 ^ 4 := by
        rw [Nat.mod_eq_of_lt (show s % 2 ^ 32 / 2 ^ 4 + 1 < 2 ^ 64 by omega),
          Nat.mod_eq_of_lt (show (2:Nat) ^ 64 - 1 < 2 ^ 64 by omega),
          and_two_pow_sub_one,
          Nat.mod_eq_of_lt (show s % 2 ^ 32 / 2 ^ 4 + 1 < 2 ^ 64 by omega)]
        exact Nat.mod_eq_of_lt (by omega)
      rw [hC]
      by_cases hov : s % 2 ^ 32 / 2 ^ 4 + 1 < 2 ^ (32 - 4)
      · have hnz : ¬ ((s % 2 ^ 32 / 2 ^ 4 + 1) * 2 ^ 4 % 2 ^ 32 = 0) := by omega
        simp only [if_neg hnz, if_pos hov]
        rw [show ((0:Nat) &&& 1 ||| 1) = 1 from by decide, ts_mask_lo_one,
          show not64 (2 ^ 32 - 1) = 2 ^ 64 - 2 ^ 32 from by decide,
          and_high _ 32 hMlt (by norm_num),
          lor_mul_pow_add _ 32 _ (show (s % 2 ^ 32 / 2 ^ 4 + 1) * 2 ^ 4 < 2 ^ 32 by omega),
          lor_one_of_even _ (by omega)]
      · have hz : (s % 2 ^ 32 / 2 ^ 4 + 1) * 2 ^ 4 % 2 ^ 32 = 0 := by omega
        simp only [if_pos hz, if_neg hov]
        rw [show ((1:Nat) &&& 1 ||| 1) = 1 from by decide, ts_mask_lo_one,
          show not64 (2 ^ 32 - 1) = 2 ^ 64 - 2 ^ 32 from by decide,
          and_high _ 32 hMlt (by norm_num),
          show (tv_sec * 2 ^ 32 + tv_usec * 2 ^ 12) / 2 ^ 32 = tv_sec from by omega,
          show (s % 2 ^ 32 / 2 ^ 4 + 1) * 2 ^ 4 = 2 ^ 32 from by omega]
        rcases Nat.mod_two_eq_zero_or_one tv_sec with hsp | hsp
        · rw [hsp]
          simp only [show ((0:Nat) = 1) = False from by simp, if_false]
          rw [show tv_sec * 2 ^ 32 = tv_sec / 2 * 2 ^ 33 from by omega,
            lor_mul_pow_add (tv_sec / 2) 33 (2 ^ 32) (by norm_num),
            lor_one_of_even _ (by omega)]
        · rw [hsp]
          simp only [show ((1:Nat) = 1) = True from by simp, if_true]
          have habs : (tv_sec / 2 * 2 ^ 33 + 2 ^ 32) ||| 2 ^ 32
              = tv_sec / 2 * 2 ^ 33 + 2 ^ 32 := by
            conv_lhs => rw [← lor_mul_pow_add (tv_sec / 2) 33 (2 ^ 32) (by norm_num)]
            rw [Nat.lor_assoc, lor_self_eq,
              lor_mul_pow_add (tv_sec / 2) 33 (2 ^ 32) (by norm_num)]
          rw [show tv_sec * 2 ^ 32 = tv_sec / 2 * 2 ^ 33 + 2 ^ 32 from by omega,
            habs, lor_one_of_even _ (by omega)]
    · simp only [if_neg hhu]
      have hC0 : ((s % 2 ^ 32 / 2 ^ 4 + 0) % 2 ^ 64 &&& (2 ^ 64 - 0) % 2 ^ 64) * 2 ^ 4 % 2 ^ 64
          = 0 := by
        rw [show ((2:Nat) ^ 64 - 0) % 2 ^ 64 = 0 from by omega, and_zero_eq]
        norm_num
      rw [hC0, and_zero_lor_one, ts_mask_lo_one,
        show not64 (2 ^ 32 - 1) = 2 ^ 64 - 2 ^ 32 from by decide,
        and_high _ 32 hMlt (by norm_num), lor_zero_eq,
        lor_one_of_even _ (by omega)]

theorem time_stamp_overflows_eq (s tv_sec tv_usec : Nat) (hs : s < 2 ^ 64)
    (hsec : tv_sec < 2 ^ 32) (husec : tv_usec < 2 ^ 20) :
    time_stamp_overflows s tv_sec tv_usec = time_stamp_overflows_closed s tv_sec tv_usec := by
  have hM : ((tv_sec <<< 32) + (tv_usec <<< 12)) % 2 ^ 64
      = tv_sec * 2 ^ 32 + tv_usec * 2 ^ 12 := by
    rw [Nat.shiftLeft_eq, Nat.shiftLeft_eq]
    apply Nat.mod_eq_of_lt
    omega
  have hMlt : tv_sec * 2 ^ 32 + tv_usec * 2 ^ 12 < 2 ^ 64 := by omega
  rcases Nat.mod_two_eq_zero_or_one s with hpar | hpar
  · simp only [time_stamp_overflows, time_stamp_overflows_closed]
    rw [hM, ts_co_eq, hpar, ts_mask_lo_zero]
    rw [show not64 (2 ^ 12 - 1) = 2 ^ 64 - 2 ^ 12 from by decide]
    rw [and_high s 12 hs (by norm_num), and_high _ 12 hMlt (by norm_num)]
    simp only [and_two_pow_sub_one, Nat.shiftRight_eq_div_pow, Nat.shiftLeft_eq,
      show ((0:Nat) = 1) = False from by simp, if_false]
    by_cases hhu : s / 2 ^ 12 * 2 ^ 12 =
        (tv_sec * 2 ^ 32 + tv_usec * 2 ^ 12) / 2 ^ 12 * 2 ^ 12
    · simp only [if_pos hhu]
      have hC : ((s % 2 ^ 12 / 2 ^ 4 + 1) % 2 ^ 64 &&& (2 ^ 64 - 1) % 2 ^ 64) * 2 ^ 4 % 2 ^ 64
          = (s % 2 ^ 12 / 2 ^ 4 + 1) * 2 ^ 4 := by
        rw [Nat.mod_eq_of_lt (show s % 2 ^ 12 / 2 ^ 4 + 1 < 2 ^ 64 by omega),
          Nat.mod_eq_of_lt (show (2:Nat) ^ 64 - 1 < 2 ^ 64 by omega),
          and_two_pow_sub_one,
          Nat.mod_eq_of_lt (show s % 2 ^ 12 / 2 ^ 4 + 1 < 2 ^ 64 by omega)]
        exact Nat.mod_eq_of_lt (by omega)
      rw [hC, decide_eq_true hhu, Bool.true_and, decide_eq_decide]
      simp only [and_true]
      omega
    · simp only [if_neg hhu]
      rw [show (decide (s / 2 ^ 12 * 2 ^ 12 =
            (tv_sec * 2 ^ 32 + tv_usec * 2 ^ 12) / 2 ^ 12 * 2 ^ 12)) = false
          from by simpa using hhu,
        Bool.false_and, decide_eq_false_iff_not]
      intro hcon
      omega
  · simp only [time_stamp_overflows, time_stamp_overflows_closed]
    rw [hM, ts_co_eq, hpar, ts_mask_lo_one]
    rw [show not64 (2 ^ 32 - 1) = 2 ^ 64 - 2 ^ 32 from by decide]
    rw [and_high s 32 hs (by norm_num), and_high _ 32 hMlt (by norm_num)]
    simp only [and_two_pow_sub_one, Nat.shiftRight_eq_div_pow, Nat.shiftLeft_eq,
      show ((1:Nat) = 1) = True from by simp, if_true]
    by_cases hhu : s / 2 ^ 32 * 2 ^ 32 =
        (tv_sec * 2 ^ 32 + tv_usec * 2 ^ 12) / 2 ^ 32 * 2 ^ 32
    · simp only [if_pos hhu]
      have hC : ((s % 2 ^ 32 / 2 ^ 4 + 1) % 2 ^ 64 &&& (2 ^ 64 - 1) % 2 ^ 64) * 2 ^ 4 % 2 ^ 64
          = (s % 2 ^ 32 / 2 ^ 4 + 1) * 2 ^ 4 := by
        rw [Nat.mod_eq_of_lt (show s % 2 ^ 32 / 2 ^ 4 + 1 < 2 ^ 64 by omega),
          Nat.mod_eq_of_lt (show (2:Nat) ^ 64 - 1 < 2 ^ 64 by omega),
          and_two_pow_sub_one,
          Nat.mod_eq_of_lt (show s % 2 ^ 32 / 2 ^ 4 + 1 < 2 ^ 64 by omega)]
        exact Nat.mod_eq_of_lt (by omega)
      rw [hC, decide_eq_true hhu, Bool.true_and, decide_eq_decide]
      simp only [and_true]
      omega
    · simp only [if_neg hhu]
      rw [show (decide (s / 2 ^ 32 * 2 ^ 32 =
            (tv_sec * 2 ^ 32 + tv_usec * 2 ^ 12) / 2 ^ 32 * 2 ^ 32)) = false
          from by simpa using hhu,
        Bool.false_and, decide_eq_false_iff_not]
      intro hcon
      omega

theorem time_stamp_closed_lt (s tv_sec tv_usec : Nat)
    (hsec : tv_sec < 2 ^ 32) (husec : tv_usec < 2 ^ 20) :
    time_stamp_closed s tv_sec tv_usec < 2 ^ 64 := by
  unfold time_stamp_closed
  rcases Nat.mod_two_eq_zero_or_one s with hpar | hpar <;>
    rw [hpar] <;>
    simp only [show ((0:Nat) = 1) = False from by simp,
      show ((1:Nat) = 1) = True from by simp, if_false, if_true] <;>
    split_ifs <;> omega

theorem closed_step_dist (s a b : Nat) (hs : s < 2 ^ 64) (ha : a < 2 ^ 32)
    (hb : b < 2 ^ 20) :
    time_stamp_closed (time_stamp_closed s a b) a b ≤ time_stamp_closed s a b + 2 ^ 32 ∧
    time_stamp_closed s a b ≤ time_stamp_closed (time_stamp_closed s a b) a b + 2 ^ 32 := by
  simp only [time_stamp_closed]
  split_ifs <;> omega

set_option maxHeartbeats 2000000 in
theorem closed_step_mono (s a1 b1 a2 b2 : Nat) (hs : s < 2 ^ 64)
    (ha1 : a1 < 2 ^ 32) (hb1 : b1 < 2 ^ 20) (ha2 : a2 < 2 ^ 32) (hb2 : b2 < 2 ^ 20)
    (hmono : a1 * 2 ^ 32 + b1 * 2 ^ 12 ≤ a2 * 2 ^ 32 + b2 * 2 ^ 12)
    (h1 : time_stamp_overflows_closed s a1 b1 = false)
    (h2 : time_stamp_overflows_closed (time_stamp_closed s a1 b1) a2 b2 = false) :
    time_stamp_closed s a1 b1 < time_stamp_closed (time_stamp_closed s a1 b1) a2 b2 := by
  simp only [time_stamp_overflows_closed, Bool.and_eq_false_iff,
    decide_eq_false_iff_not, Decidable.not_not] at h1 h2
  simp only [time_stamp_closed] at h1 h2 ⊢
  split_ifs at h1 h2 ⊢ <;> omega

theorem closed_step_formula (m : Nat) (hm : 1 ≤ m) (hle : m ≤ 255) :
    time_stamp (1000 * 2 ^ 32 + 2 ^ 12 + (m - 1) * 2 ^ 4) 1000 1 =
      1000 * 2 ^ 32 + 2 ^ 12 + m * 2 ^ 4 := by
  rw [time_stamp_eq_closed _ 1000 1 (by omega) (by norm_num) (by norm_num)]
  simp only [time_stamp_closed]
  split_ifs <;> omega

theorem time_stamp_iter_formula : ∀ n, 1 ≤ n → n ≤ 256 →
    time_stamp_iter n 1000 1 = 1000 * 2 ^ 32 + 2 ^ 12 + (n - 1) * 2 ^ 4 := by
  intro n
  induction n with
  | zero => omega
  | succ m ih =>
    intro _ hle
    rcases Nat.eq_zero_or_pos m with hm | hm
    · subst hm
      show time_stamp 0 1000 1 = _
      rw [time_stamp_eq_closed 0 1000 1 (by norm_num) (by norm_num) (by norm_num)]
      simp only [time_stamp_closed]
      split_ifs <;> first | omega | contradiction
    · have hform := ih hm (by omega)
      show time_stamp (time_stamp_iter m 1000 1) 1000 1 = _
      rw [hform, closed_step_formula m hm (by omega)]
      omega

set_option maxHeartbeats 1000000 in
/-- C8 (amended): for every value `v` of the previous-stamp variable that
is strictly smaller than the freshly issued token in the code's signed
64-bit comparison (and whose distance plus the maximal jitter allowance
stays below 2^63, so the `int64_t` addition cannot wrap),
`time_stamp_verify_and_update` with a token freshly returned by
`time_stamp()` accepts, and afterwards the variable holds
`max(v, token) ≥ token`.  `TIME_STAMP_FRAME` must exceed 2^32, which the
real frame (2^36, 16 seconds) does. -/
theorem time_stamp_verify_fresh (FRAME JITTER s a b v : Nat) (aj : Bool)
    (hs : s < 2 ^ 64) (ha : a < 2 ^ 32) (hb : b < 2 ^ 20) (hv : v < 2 ^ 64)
    (hF : (2 ^ 32 : Int) < (FRAME : Int))
    (hdv : 0 < (time_stamp s a b + 2 ^ 64 - v) % 2 ^ 64)
    (hdj : (time_stamp s a b + 2 ^ 64 - v) % 2 ^ 64 + JITTER * 256 < 2 ^ 63) :
    (time_stamp_verify_and_update FRAME JITTER (time_stamp s a b)
        (some v) aj (time_stamp s a b) a b).1 = true ∧
    (time_stamp_verify_and_update FRAME JITTER (time_stamp s a b)
        (some v) aj (time_stamp s a b) a b).2.2 =
      some (if v < time_stamp s a b then time_stamp s a b else v) ∧
    time_stamp s a b ≤ (if v < time_stamp s a b then time_stamp s a b else v) := by
  have he1 := time_stamp_eq_closed s a b hs ha hb
  have hlt1 : time_stamp s a b < 2 ^ 64 := by
    rw [he1]
    exact time_stamp_closed_lt s a b ha hb
  have hlt2 : time_stamp (time_stamp s a b) a b < 2 ^ 64 := by
    rw [time_stamp_eq_closed _ a b hlt1 ha hb]
    exact time_stamp_closed_lt _ a b ha hb
  have hdist := closed_step_dist s a b hs ha hb
  have hd1 : time_stamp (time_stamp s a b) a b ≤ time_stamp s a b + 2 ^ 32 := by
    rw [time_stamp_eq_closed _ a b hlt1 ha hb, he1]
    exact hdist.1
  have hd2 : time_stamp s a b ≤ time_stamp (time_stamp s a b) a b + 2 ^ 32 := by
    rw [time_stamp_eq_closed _ a b hlt1 ha hb, he1]
    exact hdist.2
  simp only [time_stamp_verify_and_update, ts_co_eq]
  generalize hT2 : time_stamp (time_stamp s a b) a b = t2 at hd1 hd2 hlt2 ⊢
  generalize hT1 : time_stamp s a b = t1 at hdv hdj hd1 hd2 hlt1 ⊢
  rw [Nat.mod_eq_of_lt hlt2, Nat.mod_eq_of_lt hv]
  have hframe : ¬ ((FRAME : Int) ≤ toInt64
      (if toInt64 ((t1 + 2 ^ 64 - t2) % 2 ^ 64) < 0 then
        (2 ^ 64 - (t1 + 2 ^ 64 - t2) % 2 ^ 64) % 2 ^ 64
      else (t1 + 2 ^ 64 - t2) % 2 ^ 64)) := by
    simp only [toInt64]
    split_ifs <;> omega
  rw [if_neg hframe]
  rcases Nat.mod_two_eq_zero_or_one t1 with hp | hp <;>
    rw [hp] <;>
    cases aj <;>
    simp only [show ((0:Nat) <<< 3) = 0 from by decide,
      show ((1:Nat) <<< 3) = 8 from by decide,
      show ((0:Nat) <<< 0) = 0 from by decide,
      Nat.shiftLeft_eq, toInt64,
      show (false = true) = False from by simp,
      show (true = true) = True from by simp, if_false, if_true] <;>
    split_ifs <;>
    first
      | exact ⟨rfl, rfl, by omega⟩
      | (exfalso; omega)
      | omega

/-! ## Theorems for C1 -/

/-- C1 (counterexample): tokens are NOT strictly increasing across the
counter-overflow step.  From the process start state, with `gettimeofday`
constantly returning (1000 s, 1 µs), the 257th token is smaller than the
256th: the 257th call overflows the 8-bit counter, switches to
counter-only mode and keeps only the seconds part, dropping the non-zero
microseconds field (and the counter becomes 256, not 0). -/
theorem time_stamp_not_monotone :
    time_stamp_iter 257 1000 1 < time_stamp_iter 256 1000 1 := by
  have h256 := time_stamp_iter_formula 256 (by norm_num) (by norm_num)
  have h257 : time_stamp_iter 257 1000 1 = 1000 * 2 ^ 32 + 2 ^ 12 + 1 := by
    show time_stamp (time_stamp_iter 256 1000 1) 1000 1 = _
    rw [h256, time_stamp_eq_closed _ 1000 1 (by omega) (by norm_num) (by norm_num)]
    clear h256
    simp only [time_stamp_closed]
    split_ifs <;> first | omega | contradiction
  rw [h256, h257]
  omega

/-- C1 (amended): for two successive `time_stamp` calls with
non-decreasing wall time, the later token is strictly greater PROVIDED
neither call overflows its counter; across a counter-overflow step the
token can decrease (see the counterexample). -/
theorem time_stamp_monotone_of_no_overflow (s a1 b1 a2 b2 : Nat) (hs : s < 2 ^ 64)
    (ha1 : a1 < 2 ^ 32) (hb1 : b1 < 2 ^ 20) (ha2 : a2 < 2 ^ 32) (hb2 : b2 < 2 ^ 20)
    (hmono : a1 * 2 ^ 32 + b1 * 2 ^ 12 ≤ a2 * 2 ^ 32 + b2 * 2 ^ 12)
    (h1 : time_stamp_overflows s a1 b1 = false)
    (h2 : time_stamp_overflows (time_stamp s a1 b1) a2 b2 = false) :
    time_stamp s a1 b1 < time_stamp (time_stamp s a1 b1) a2 b2 := by
  have he1 := time_stamp_eq_closed s a1 b1 hs ha1 hb1
  have hlt1 : time_stamp s a1 b1 < 2 ^ 64 := by
    rw [he1]
    exact time_stamp_closed_lt s a1 b1 ha1 hb1
  have he2 := time_stamp_eq_closed (time_stamp s a1 b1) a2 b2 hlt1 ha2 hb2
  have ho1 := time_stamp_overflows_eq s a1 b1 hs ha1 hb1
  have ho2 := time_stamp_overflows_eq (time_stamp s a1 b1) a2 b2 hlt1 ha2 hb2
  have h1c : time_stamp_overflows_closed s a1 b1 = false := by
    rw [← ho1]
    exact h1
  have h2c : time_stamp_overflows_closed (time_stamp_closed s a1 b1) a2 b2 = false := by
    rw [← he1, ← ho2]
    exact h2
  have hfin := closed_step_mono s a1 b1 a2 b2 hs ha1 hb1 ha2 hb2 hmono h1c h2c
  rw [he2, he1]
  exact hfin

/-- Witness for C1 (amended): two overflow-free calls at (1000 s, 1 µs)
then (1000 s, 2 µs) produce strictly increasing tokens. -/
theorem time_stamp_monotone_of_no_overflow_witness :
    time_stamp_overflows 0 1000 1 = false ∧
    time_stamp_overflows (time_stamp 0 1000 1) 1000 2 = false ∧
    time_stamp 0 1000 1 < time_stamp (time_stamp 0 1000 1) 1000 2 :=
  ⟨by decide, by decide,
   time_stamp_monotone_of_no_overflow 0 1000 1 1000 2 (by decide) (by decide)
     (by decide) (by decide) (by decide) (by decide) (by decide) (by decide)⟩

/-! ## Theorems for C2 -/

/-- C2 (code bug): at a concrete counter-only-flagged token, the code
accepts with `*previous = stamp + 8 × TIME_STAMP_JITTER` and jitter
allowed, because it computes `TIME_STAMP_JITTER << (co << 3)`
(a factor of 256), whereas the claim — and the comment right above the
line, "8 times higher jitter allowed" — prescribe a factor of 8, which
rejects this same input.  `FRAME = 2^36`, `JITTER = 0x27100000`. -/
theorem time_stamp_verify_jitter_shift :
    (time_stamp_verify_and_update (2 ^ 36) 655360000 (1000 * 2 ^ 32 + 1)
        (some (1000 * 2 ^ 32 + 1 + 8 * 655360000)) true 0 1000 1).1 = true ∧
    (time_stamp_verify_and_update_claim8 (2 ^ 36) 655360000 (1000 * 2 ^ 32 + 1)
        (some (1000 * 2 ^ 32 + 1 + 8 * 655360000)) true 0 1000 1).1 = false := by
  constructor
  · decide
  · decide

/-! ## Theorems for C8 -/

/-- C8 (counterexample): the claim fails as stated: with the
previous-stamp variable already holding the very token just issued
(a value the variable can hold), verification without jitter rejects,
since `diff = 0 ≤ 0`. -/
theorem time_stamp_verify_rejects_equal_previous :
    (time_stamp_verify_and_update (2 ^ 36) 655360000 (time_stamp 0 1000 1)
        (some (time_stamp 0 1000 1)) false (time_stamp 0 1000 1) 1000 1).1 = false := by
  decide

/-- Witness for C8 (amended): a fresh token against a strictly smaller
previous value is accepted. -/
theorem time_stamp_verify_fresh_witness :
    0 < (time_stamp 0 1000 1 + 2 ^ 64 - 1000 * 2 ^ 32) % 2 ^ 64 ∧
    (time_stamp 0 1000 1 + 2 ^ 64 - 1000 * 2 ^ 32) % 2 ^ 64 + 655360000 * 256 < 2 ^ 63 ∧
    (time_stamp_verify_and_update (2 ^ 36) 655360000 (time_stamp 0 1000 1)
        (some (1000 * 2 ^ 32)) false (time_stamp 0 1000 1) 1000 1).1 = true :=
  ⟨by decide, by decide,
   (time_stamp_verify_fresh (2 ^ 36) 655360000 0 1000 1 (1000 * 2 ^ 32) false
     (by decide) (by decide) (by decide) (by decide) (by decide) (by decide)
     (by decide)).1⟩
